import Mathlib

/-!
Shallow embedding of `src/app.py` (Tymer analytics dashboard).

A pandas `DataFrame` is modelled as `DF`: a list of column names and a list
of rows, each row a list of cells positionally aligned with the columns.
A cell is either a raw string or a parsed UTC timestamp; a timestamp cell
holds `Option Int` (seconds since the Unix epoch), `none` standing for
pandas `NaT` (an unparseable or missing datetime).  Timestamp parsing by
`pd.to_datetime` is kept abstract as a function `parse : String → Option Int`.
All pandas operations used by the app (`copy`, non-inplace `sort_values`,
boolean-mask selection, `groupby`, `to_csv`) return fresh objects; the
embedding reflects that by being pure, and the render pass threads the
table state explicitly to express the frame property.
-/

inductive Cell where
  | str : String → Cell
  | ts : Option Int → Cell
deriving Repr, DecidableEq

structure DF where
  cols : List String
  rows : List (List Cell)
deriving Repr, DecidableEq

def emptyDF : DF := ⟨[], []⟩

/-- Column lookup by name in a positionally-aligned row (pandas `row[name]`). -/
def getByName (cols : List String) (r : List Cell) (name : String) : Option Cell :=
  ((cols.zip r).find? (fun p => p.1 = name)).map Prod.snd

/-- The `request_time` value of a row: `none` when the column is absent,
holds no parsed timestamp, or the timestamp is `NaT`. -/
def tsKey (cols : List String) (r : List Cell) : Option Int :=
  match getByName cols r "request_time" with
  | some (Cell.ts t) => t
  | _ => none

/-- Substring test on character lists (Python `sub in s`). -/
def hasSubstr (p : List Char) : List Char → Bool
  | [] => p.isEmpty
  | c :: t => p.isPrefixOf (c :: t) || hasSubstr p t

/-- Time-like column detection (src/app.py line 49): the lowercased name
contains "created" or contains "time". -/
def timeLike (col : String) : Bool :=
  hasSubstr "created".data (col.data.map Char.toLower) ||
  hasSubstr "time".data (col.data.map Char.toLower)

/-- Timestamp parsing, `pd.to_datetime(cell, utc=True)`: a raw string is
parsed (possibly to `NaT`); an already-parsed cell is unchanged. -/
def parseCell (parse : String → Option Int) : Cell → Cell
  | Cell.str s => Cell.ts (parse s)
  | c => c

/-- Column normalization of `load_contact_messages` (src/app.py lines 48-52):
on a non-empty frame, collect time-like columns, parse the first one as a UTC
timestamp and rename it to `request_time`.  Assignment and rename act by
column name, as pandas does. -/
def normalizeTime (parse : String → Option Int) (df : DF) : DF :=
  if df.rows.isEmpty then df else
  match df.cols.filter timeLike with
  | [] => df
  | c :: _ =>
      ⟨df.cols.map (fun n => if n = c then "request_time" else n),
       df.rows.map (fun r =>
         (df.cols.zip r).map (fun p => if p.1 = c then parseCell parse p.2 else p.2))⟩

/-- The loader `load_contact_messages` (src/app.py lines 43-56).  The fetch
from the data source is abstracted as an `Except`: `ok` carries the raw frame
built from the response records, `error` carries the exception text.  The
result is the loaded table together with the list of error messages shown
with `st.error`. -/
def load_contact_messages (parse : String → Option Int)
    (fetched : Except String DF) : DF × List String :=
  match fetched with
  | Except.ok raw => (normalizeTime parse raw, [])
  | Except.error e => (emptyDF, ["Error loading contact messages: " ++ e])

/-- Modelled from the spec (design note in section 9, `find_time_column`):
the index of the first column whose name matches the detection rule, if any.
Used as the spec-side characterization of the tie-break in section 4.1. -/
def spec_find_time_column : List String → Option Nat
  | [] => none
  | c :: cs => if timeLike c then some 0 else (spec_find_time_column cs).map (· + 1)

/-- Day truncation `.dt.normalize()`: a UTC timestamp floored to midnight of
its UTC calendar day. -/
def tsNormalize (t : Int) : Int := t.ediv 86400 * 86400

/-- Row predicate of the Today metric (src/app.py line 81):
the normalized `request_time` equals the normalized current instant.
A `NaT` never compares equal. -/
def todayRow (cols : List String) (now : Int) (r : List Cell) : Bool :=
  match tsKey cols r with
  | some t => tsNormalize t == tsNormalize now
  | none => false

/-- The Today KPI (src/app.py lines 77-81): 0 unless the table is non-empty
and has a `request_time` column. -/
def todayMetric (df : DF) (now : Int) : Nat :=
  if !df.rows.isEmpty && df.cols.contains "request_time" then
    (df.rows.filter (todayRow df.cols now)).length
  else 0

/-- Row predicate of the Last-7-days metric (src/app.py line 94):
`request_time >= now - 7 days`.  A `NaT` never satisfies the comparison. -/
def last7Row (cols : List String) (now : Int) (r : List Cell) : Bool :=
  match tsKey cols r with
  | some t => decide (now - 7 * 86400 ≤ t)
  | none => false

/-- The Last-7-days KPI (src/app.py lines 90-94). -/
def last7Metric (df : DF) (now : Int) : Nat :=
  if !df.rows.isEmpty && df.cols.contains "request_time" then
    (df.rows.filter (last7Row df.cols now)).length
  else 0

/-- The Total KPI (src/app.py line 75): `len(contact_df)`. -/
def totalMetric (df : DF) : Nat := df.rows.length

/-- The three KPI cards in their fixed order (src/app.py lines 67-101). -/
def kpiCards (df : DF) (now : Int) : List (String × Nat) :=
  [("TOTAL MESSAGES", totalMetric df),
   ("TODAY", todayMetric df now),
   ("LAST 7 DAYS", last7Metric df now)]

/-- The UTC day numbers of the rows with a non-`NaT` `request_time`
(the `.dt.date` values; `groupby` drops `NaT` keys). -/
def dayKeys (df : DF) : List Int :=
  df.rows.filterMap (fun r => (tsKey df.cols r).map (fun t => t.ediv 86400))

/-- Insertion of an element into a list ordered by a Boolean comparator. -/
def insertBy (le : α → α → Bool) (a : α) : List α → List α
  | [] => [a]
  | b :: t => if le a b then a :: b :: t else b :: insertBy le a t

/-- Insertion sort by a Boolean comparator, modelling the comparison sorts
performed by pandas `sort_values` and `groupby`. -/
def sortBy (le : α → α → Bool) : List α → List α
  | [] => []
  | a :: t => insertBy le a (sortBy le t)

/-- Daily aggregation `groupby(dt.date).size()` (src/app.py line 110): one
pair per distinct UTC day present, keys ascending, with the row count per
day. -/
def dailyCounts (df : DF) : List (Int × Nat) :=
  let ks := dayKeys df
  (sortBy (fun a b => decide (a ≤ b)) ks.dedup).map (fun d => (d, ks.count d))

inductive ChartOut where
  | plot : List (Int × Nat) → ChartOut
  | info : String → ChartOut
deriving Repr, DecidableEq

/-- The trend-chart section (src/app.py lines 109-120). -/
def chartSection (df : DF) : ChartOut :=
  if !df.rows.isEmpty && df.cols.contains "request_time" then
    ChartOut.plot (dailyCounts df)
  else ChartOut.info "No contact message data available"

/-- Descending-order comparator on `request_time` keys; pandas `sort_values`
places `NaT` last independently of direction. -/
def keyLe (a b : Option Int) : Bool :=
  match a, b with
  | some x, some y => decide (y ≤ x)
  | some _, none => true
  | none, some _ => false
  | none, none => true

/-- Sorting by `request_time` descending, `sort_values` with `ascending=False`
(src/app.py lines 131, 161). -/
def sortByTimeDesc (df : DF) : DF :=
  ⟨df.cols, sortBy (fun a b => keyLe (tsKey df.cols a) (tsKey df.cols b)) df.rows⟩

/-- The view `recent_contacts` (src/app.py lines 129-131): a copy of the
table, sorted descending by `request_time` when that column exists. -/
def recentView (df : DF) : DF :=
  if df.cols.contains "request_time" then sortByTimeDesc df else df

/-- The list `preview_cols` (src/app.py lines 134-137). -/
def previewCols (df : DF) : List String :=
  ["name", "email", "request_time"].filter (fun c => df.cols.contains c)

/-- Truncation `.head(n)` of a frame. -/
def headDF (n : Nat) (df : DF) : DF := ⟨df.cols, df.rows.take n⟩

/-- Render a cell for display. -/
def cellToString : Cell → String
  | Cell.str s => s
  | Cell.ts (some t) => toString t
  | Cell.ts none => "NaT"

/-- Python `str.title()` on ASCII text: a letter that follows a non-letter is
uppercased, a letter that follows a letter is lowercased. -/
def titleCaseAux : Bool → List Char → List Char
  | _, [] => []
  | prevAlpha, c :: t =>
      (if c.isAlpha then (if prevAlpha then c.toLower else c.toUpper) else c)
        :: titleCaseAux c.isAlpha t

/-- Field-label humanization (src/app.py line 148): underscores replaced by
spaces, then title-cased. -/
def humanize (s : String) : String :=
  ⟨titleCaseAux false ((s.data).map (fun c => if c = '_' then ' ' else c))⟩

/-- One expander of the recent-activity preview (src/app.py lines 143-148):
the summary labels come from the row fields `name` (default "Unknown") and
`email` (default the empty string), and the expanded body lists every field
of the full row except `id`, each label humanized. -/
structure ExpItem where
  nameLabel : String
  emailLabel : String
  fields : List (String × String)
deriving Repr, DecidableEq

def expItem (cols : List String) (r : List Cell) : ExpItem :=
  { nameLabel := match getByName cols r "name" with
      | some c => cellToString c
      | none => "Unknown"
    emailLabel := match getByName cols r "email" with
      | some c => cellToString c
      | none => ""
    fields := ((cols.zip r).filter (fun p => p.1 ≠ "id")).map
      (fun p => (humanize p.1, cellToString p.2)) }

inductive PreviewOut where
  | expanders : List ExpItem → PreviewOut
  | table : DF → PreviewOut
  | info : String → PreviewOut
deriving Repr, DecidableEq

/-- The recent-activity section (src/app.py lines 128-152). -/
def previewSection (df : DF) : PreviewOut :=
  if df.rows.isEmpty then PreviewOut.info "No messages yet" else
  let recent := recentView df
  if !(previewCols df).isEmpty then
    PreviewOut.expanders ((recent.rows.take 10).map (expItem df.cols))
  else
    PreviewOut.table (headDF 10 recent)

/-- Discriminator: whether the preview section displays expander items. -/
def isExpanders : PreviewOut → Bool
  | PreviewOut.expanders _ => true
  | _ => false

/-- The view `display_df` (src/app.py lines 159-163). -/
def displayView (df : DF) : DF :=
  if df.cols.contains "request_time" then sortByTimeDesc df else df

def joinComma (l : List String) : String := String.intercalate "," l

/-- Rendering of a cell into a CSV field for `to_csv`; `NaT` prints empty.
Quoting of embedded delimiters does not arise for the fields exercised here. -/
def cellCsv : Cell → String
  | Cell.str s => s
  | Cell.ts (some t) => toString t
  | Cell.ts none => ""

/-- CSV serialization `to_csv(index=False)` (src/app.py line 168) as a list
of lines: a header of the exact column names, then one line per row, no
index column. -/
def csvLines (df : DF) : List String :=
  joinComma df.cols :: df.rows.map (fun r => joinComma (r.map cellCsv))

structure Download where
  lines : List String
  filename : String
  mime : String
deriving Repr, DecidableEq

inductive TableOut where
  | table : DF → Download → TableOut
  | info : String → TableOut
deriving Repr, DecidableEq

/-- The full-table section with its CSV download (src/app.py lines 159-176). -/
def fullTableSection (df : DF) : TableOut :=
  if df.rows.isEmpty then TableOut.info "No contact messages yet" else
  TableOut.table (displayView df)
    { lines := csvLines (displayView df)
      filename := "contact_messages.csv"
      mime := "text/csv" }

structure RenderOut where
  kpis : List (String × Nat)
  chart : ChartOut
  preview : PreviewOut
  fullTable : TableOut
deriving Repr, DecidableEq

/-- One render pass over the loaded table, threading the table state through
every step: each step returns its output together with the table as it stands
afterwards, mirroring that `copy`, non-inplace `sort_values`, boolean masks,
`groupby` and `to_csv` all leave their input frame untouched. -/
def metricsStep (df : DF) (now : Int) : List (String × Nat) × DF := (kpiCards df now, df)

def chartStep (df : DF) : ChartOut × DF := (chartSection df, df)

def previewStep (df : DF) : PreviewOut × DF := (previewSection df, df)

def fullTableStep (df : DF) : TableOut × DF := (fullTableSection df, df)

def renderPass (df : DF) (now : Int) : RenderOut × DF :=
  let (k, df1) := metricsStep df now
  let (c, df2) := chartStep df1
  let (p, df3) := previewStep df2
  let (t, df4) := fullTableStep df3
  (⟨k, c, p, t⟩, df4)

/-! Concrete tables used to instantiate the general theorems.  Epoch seconds:
1704153600 is 2024-01-02T00:00Z, so 1704157200 is 2024-01-02T01:00Z,
1704150000 is 2024-01-01T23:00Z and 1704155400 is 2024-01-02T00:30Z. -/

def nowEx : Int := 1704157200

def dfToday : DF :=
  ⟨["id", "request_time"],
   [[Cell.str "1", Cell.ts (some 1704150000)],
    [Cell.str "2", Cell.ts (some 1704155400)]]⟩

/-- Rows at exactly now, now minus 6 days 23 hours (601200 s), and now minus
7 days 1 hour (608400 s). -/
def dfWeek : DF :=
  ⟨["id", "request_time"],
   [[Cell.str "1", Cell.ts (some 1704157200)],
    [Cell.str "2", Cell.ts (some 1703556000)],
    [Cell.str "3", Cell.ts (some 1703548800)]]⟩

def parseEx : String → Option Int := fun s =>
  if s = "2024-01-01" then some 1704067200 else none

def dfTie : DF :=
  ⟨["id", "updated_time", "created_at"],
   [[Cell.str "1", Cell.str "2024-01-01", Cell.str "x"]]⟩

def dfPlain : DF := ⟨["foo"], [[Cell.str "x"]]⟩

/-- Rows whose ordinal request times arrive in the order 3, 1, 2. -/
def dfOrd : DF :=
  ⟨["name", "request_time"],
   [[Cell.str "a", Cell.ts (some 3)],
    [Cell.str "b", Cell.ts (some 1)],
    [Cell.str "c", Cell.ts (some 2)]]⟩

def dfBig : DF :=
  ⟨["request_time"], (List.range 12).map (fun i => [Cell.ts (some (Int.ofNat i))])⟩

def dfNull : DF :=
  ⟨["id", "request_time"],
   [[Cell.str "1", Cell.ts (some 86400)],
    [Cell.str "2", Cell.ts none]]⟩

def rowNull : List Cell := [Cell.str "3", Cell.ts none]

/-! Helper lemmas about the insertion sort and the grouping. -/

theorem insertBy_perm (le : α → α → Bool) (a : α) (l : List α) :
    List.Perm (insertBy le a l) (a :: l) := by
  induction l with
  | nil => simp [insertBy]
  | cons b t ih =>
    unfold insertBy
    by_cases h : le a b
    · simp [h]
    · simp only [h, Bool.false_eq_true, if_false]
      exact (ih.cons b).trans (List.Perm.swap a b t)

theorem sortBy_perm (le : α → α → Bool) (l : List α) : List.Perm (sortBy le l) l := by
  induction l with
  | nil => simp [sortBy]
  | cons a t ih => exact (insertBy_perm le a (sortBy le t)).trans (ih.cons a)

theorem pairwise_insertBy {le : α → α → Bool}
    (total : ∀ a b, le a b = true ∨ le b a = true)
    (htrans : ∀ a b c, le a b = true → le b c = true → le a c = true)
    (a : α) {l : List α} (h : l.Pairwise (fun x y => le x y = true)) :
    (insertBy le a l).Pairwise (fun x y => le x y = true) := by
  induction l with
  | nil => simp [insertBy]
  | cons b t ih =>
    rcases List.pairwise_cons.mp h with ⟨hb, ht⟩
    unfold insertBy
    by_cases hab : le a b
    · simp only [hab, if_true]
      refine List.pairwise_cons.mpr ⟨?_, h⟩
      intro x hx
      rcases List.mem_cons.mp hx with rfl | hx
      · exact hab
      · exact htrans a b x hab (hb x hx)
    · simp only [hab, Bool.false_eq_true, if_false]
      have hba : le b a = true := (total a b).resolve_left hab
      refine List.pairwise_cons.mpr ⟨?_, ih ht⟩
      intro x hx
      rcases List.mem_cons.mp ((insertBy_perm le a t).mem_iff.mp hx) with rfl | hx
      · exact hba
      · exact hb x hx

theorem pairwise_sortBy {le : α → α → Bool}
    (total : ∀ a b, le a b = true ∨ le b a = true)
    (htrans : ∀ a b c, le a b = true → le b c = true → le a c = true)
    (l : List α) :
    (sortBy le l).Pairwise (fun x y => le x y = true) := by
  induction l with
  | nil => simp [sortBy]
  | cons a t ih => exact pairwise_insertBy total htrans a ih

theorem sum_map_count_cons (a : Int) (ks m : List Int) :
    (m.map (fun d => (a :: ks).count d)).sum
      = (m.map (fun d => ks.count d)).sum + m.count a := by
  induction m with
  | nil => simp
  | cons b t ih =>
    simp only [List.map_cons, List.sum_cons, ih]
    rw [List.count_cons, List.count_cons]
    by_cases hab : a = b
    · subst hab
      simp only [beq_self_eq_true, if_true]
      omega
    · have h1 : (b == a) = false := by simp [Ne.symm hab]
      have h2 : (a == b) = false := by simp [hab]
      simp only [h1, h2, Bool.false_eq_true, if_false]
      omega

theorem sum_counts_dedup (ks : List Int) :
    (ks.dedup.map (fun d => ks.count d)).sum = ks.length := by
  induction ks with
  | nil => simp
  | cons a t ih =>
    by_cases h : a ∈ t
    · rw [List.dedup_cons_of_mem h, sum_map_count_cons]
      have ha : t.dedup.count a = 1 := by
        rw [List.count_dedup]
        simp [h]
      simp [ha, ih]
    · rw [List.dedup_cons_of_not_mem h]
      simp only [List.map_cons, List.sum_cons]
      rw [sum_map_count_cons]
      have hna : t.dedup.count a = 0 :=
        List.count_eq_zero_of_not_mem (fun hc => h (List.mem_dedup.mp hc))
      have hc0 : t.count a = 0 := List.count_eq_zero_of_not_mem h
      simp [List.count_cons, hc0, hna, ih]
      omega

theorem todayMetric_eq_filter (df : DF) (now : Int) (h : "request_time" ∈ df.cols) :
    todayMetric df now = (df.rows.filter (todayRow df.cols now)).length := by
  have hc : df.cols.contains "request_time" = true := by simpa using h
  unfold todayMetric
  rw [hc]
  cases hr : df.rows with
  | nil => simp
  | cons a l => simp

theorem last7Metric_eq_filter (df : DF) (now : Int) (h : "request_time" ∈ df.cols) :
    last7Metric df now = (df.rows.filter (last7Row df.cols now)).length := by
  have hc : df.cols.contains "request_time" = true := by simpa using h
  unfold last7Metric
  rw [hc]
  cases hr : df.rows with
  | nil => simp
  | cons a l => simp

/-- C1: for every loaded table with a `request_time` column, the Today metric
counts exactly the rows whose `request_time`, truncated to the UTC calendar
day, equals the UTC calendar day of the evaluation instant. -/
theorem today_counts_rows_on_current_utc_day (df : DF) (now : Int)
    (h : "request_time" ∈ df.cols) :
    todayMetric df now =
      (df.rows.filter (fun r =>
        match tsKey df.cols r with
        | some t => decide (t.ediv 86400 = now.ediv 86400)
        | none => false)).length := by
  rw [todayMetric_eq_filter df now h]
  apply congrArg List.length
  apply List.filter_congr
  intro r _
  unfold todayRow
  cases tsKey df.cols r with
  | none => rfl
  | some t =>
    by_cases hEq : t.ediv 86400 = now.ediv 86400
    · simp [tsNormalize, hEq]
    · have h2 : tsNormalize t ≠ tsNormalize now := fun hc =>
        hEq (mul_right_cancel₀ (by norm_num) hc)
      show (tsNormalize t == tsNormalize now) = decide (t.ediv 86400 = now.ediv 86400)
      rw [beq_eq_false_iff_ne.mpr h2, decide_eq_false hEq]

/-- Witness for C1 at now = 2024-01-02T01:00Z: the row at 2024-01-01T23:00Z
is not counted, the row at 2024-01-02T00:30Z is, so Today = 1. -/
theorem today_counts_rows_on_current_utc_day_witness :
    todayMetric dfToday nowEx =
      (dfToday.rows.filter (fun r =>
        match tsKey dfToday.cols r with
        | some t => decide (t.ediv 86400 = nowEx.ediv 86400)
        | none => false)).length ∧
    todayMetric dfToday nowEx = 1 :=
  ⟨today_counts_rows_on_current_utc_day dfToday nowEx (by decide), by decide⟩

/-- C2: for every loaded table with a `request_time` column, the Last-7-days
metric counts exactly the rows whose `request_time` is at or after the
evaluation instant minus 604800 seconds (7 times 24 hours), an inclusive
rolling window. -/
theorem last7_counts_rolling_inclusive_window (df : DF) (now : Int)
    (h : "request_time" ∈ df.cols) :
    last7Metric df now =
      (df.rows.filter (fun r =>
        match tsKey df.cols r with
        | some t => decide (now - 604800 ≤ t)
        | none => false)).length := by
  rw [last7Metric_eq_filter df now h]
  apply congrArg List.length
  apply List.filter_congr
  intro r _
  unfold last7Row
  cases tsKey df.cols r with
  | none => rfl
  | some t => norm_num

/-- Witness for C2: rows at exactly now, at now minus 6 days 23 hours, and at
now minus 7 days 1 hour; the window keeps the first two, so the count is 2. -/
theorem last7_counts_rolling_inclusive_window_witness :
    last7Metric dfWeek nowEx =
      (dfWeek.rows.filter (fun r =>
        match tsKey dfWeek.cols r with
        | some t => decide (nowEx - 604800 ≤ t)
        | none => false)).length ∧
    last7Metric dfWeek nowEx = 2 :=
  ⟨last7_counts_rolling_inclusive_window dfWeek nowEx (by decide), by decide⟩

/-- C4: on every failure of the fetch or of response processing, the loader
reports the error on the user-facing surface and returns the empty table; it
is a total function, so no exception propagates to the caller. -/
theorem loader_returns_empty_table_on_error
    (parse : String → Option Int) (e : String) :
    load_contact_messages parse (Except.error e)
      = (emptyDF, ["Error loading contact messages: " ++ e]) := rfl

/-- C8: the first KPI card always shows the Total metric, which equals the
number of rows of the loaded table, with no condition on its columns. -/
theorem total_metric_is_row_count (df : DF) (now : Int) :
    (kpiCards df now).head? = some ("TOTAL MESSAGES", df.rows.length) ∧
    totalMetric df = df.rows.length :=
  ⟨rfl, rfl⟩

/-- C9: one whole render pass, threading the table state through the metric,
chart, preview and full-table steps, returns the loaded table unchanged, and
every rendered value is computed from that unchanged table. -/
theorem render_pass_leaves_table_unchanged (df : DF) (now : Int) :
    (renderPass df now).2 = df ∧
    (renderPass df now).1 =
      ⟨kpiCards df now, chartSection df, previewSection df, fullTableSection df⟩ :=
  ⟨rfl, rfl⟩

theorem zipmap_no_match (f : Cell → Cell) (c : String) :
    ∀ (cols : List String) (r : List Cell), c ∉ cols → r.length = cols.length →
      (cols.zip r).map (fun p => if p.1 = c then f p.2 else p.2) = r := by
  intro cols
  induction cols with
  | nil =>
    intro r _ hlen
    rw [List.length_eq_zero.mp hlen]
    rfl
  | cons c0 cs ih =>
    intro r hmem hlen
    cases r with
    | nil => simp at hlen
    | cons a as =>
      have hc0 : c0 ≠ c := fun hc => hmem (hc ▸ List.mem_cons_self c0 cs)
      have hcs : c ∉ cs := fun hc => hmem (List.mem_cons_of_mem c0 hc)
      simp only [List.zip_cons_cons, List.map_cons, if_neg hc0]
      rw [ih as hcs (by simpa using hlen)]

theorem zipmap_set (f : Cell → Cell) (c : String) :
    ∀ (cols : List String) (i : Nat) (r : List Cell), cols.Nodup →
      r.length = cols.length → cols[i]? = some c →
      (cols.zip r).map (fun p => if p.1 = c then f p.2 else p.2)
        = r.set i (f (r.getD i (Cell.str ""))) := by
  intro cols
  induction cols with
  | nil =>
    intro i r _ _ hget
    simp at hget
  | cons c0 cs ih =>
    intro i r hnd hlen hget
    cases r with
    | nil => simp at hlen
    | cons a as =>
      rcases List.nodup_cons.mp hnd with ⟨hc0cs, hcs⟩
      cases i with
      | zero =>
        have hc : c0 = c := by simpa using hget
        subst hc
        simp only [List.zip_cons_cons, List.map_cons, List.set_cons_zero,
          List.getD_cons_zero]
        simp only [if_true]
        rw [zipmap_no_match f c0 cs as hc0cs (by simpa using hlen)]
      | succ j =>
        have hget' : cs[j]? = some c := by simpa using hget
        have hcmem : c ∈ cs := by
          rcases List.getElem?_eq_some.mp hget' with ⟨hw, he⟩
          exact he ▸ List.getElem_mem hw
        have hne : c0 ≠ c := fun hc => hc0cs (hc ▸ hcmem)
        simp only [List.zip_cons_cons, List.map_cons, if_neg hne, List.set_cons_succ,
          List.getD_cons_succ]
        rw [ih j as hcs (by simpa using hlen) hget']

theorem map_rename_no_match (new : String) (c : String) (cols : List String)
    (h : c ∉ cols) :
    cols.map (fun n => if n = c then new else n) = cols := by
  conv_rhs => rw [← List.map_id cols]
  apply List.map_congr_left
  intro a ha
  have : a ≠ c := fun hc => h (hc ▸ ha)
  simp [this]

theorem map_rename_set (new : String) (c : String) :
    ∀ (cols : List String) (i : Nat), cols.Nodup → cols[i]? = some c →
      cols.map (fun n => if n = c then new else n) = cols.set i new := by
  intro cols
  induction cols with
  | nil =>
    intro i _ hget
    simp at hget
  | cons c0 cs ih =>
    intro i hnd hget
    rcases List.nodup_cons.mp hnd with ⟨hc0cs, hcs⟩
    cases i with
    | zero =>
      have hc : c0 = c := by simpa using hget
      subst hc
      simp only [List.map_cons, List.set_cons_zero]
      simp only [if_true]
      rw [map_rename_no_match new c0 cs hc0cs]
    | succ j =>
      have hget' : cs[j]? = some c := by simpa using hget
      have hcmem : c ∈ cs := by
        rcases List.getElem?_eq_some.mp hget' with ⟨hw, he⟩
        exact he ▸ List.getElem_mem hw
      have hne : c0 ≠ c := fun hc => hc0cs (hc ▸ hcmem)
      simp only [List.map_cons, if_neg hne, List.set_cons_succ]
      rw [ih j hcs hget']

theorem spec_find_time_column_none :
    ∀ cs : List String, spec_find_time_column cs = none → cs.filter timeLike = [] := by
  intro cs
  induction cs with
  | nil => intro _; rfl
  | cons c0 t ih =>
    intro h
    unfold spec_find_time_column at h
    by_cases h0 : timeLike c0
    · simp [h0] at h
    · have ht : spec_find_time_column t = none := by
        by_contra hne
        rcases Option.ne_none_iff_exists.mp hne with ⟨j, hj⟩
        simp [h0, ← hj] at h
      simp only [List.filter_cons, h0, Bool.false_eq_true, if_false]
      exact ih ht

theorem spec_find_time_column_some :
    ∀ (cs : List String) (i : Nat), spec_find_time_column cs = some i →
      ∃ c, cs[i]? = some c ∧ timeLike c = true ∧
        ∃ t, cs.filter timeLike = c :: t := by
  intro cs
  induction cs with
  | nil => intro i h; simp [spec_find_time_column] at h
  | cons c0 t ih =>
    intro i h
    unfold spec_find_time_column at h
    by_cases h0 : timeLike c0
    · have hi : i = 0 := by simp [h0] at h; omega
      subst hi
      exact ⟨c0, by simp, h0, t.filter timeLike, by simp [List.filter_cons, h0]⟩
    · simp only [h0, Bool.false_eq_true, if_false, Option.map_eq_some'] at h
      rcases h with ⟨j, hj, hij⟩
      rcases ih j hj with ⟨c, hget, htl, tl, hfil⟩
      refine ⟨c, ?_, htl, tl, ?_⟩
      · subst hij; simpa using hget
      · simp [List.filter_cons, h0, hfil]

/-- C3: for every non-empty fetched table with distinct, well-formed columns,
the loader parses and renames exactly the first column (in original column
order) whose name contains "created" or "time" case-insensitively, leaving
every other column as it was; if no column matches, the table is unchanged.
The first-match index is the spec-side `spec_find_time_column`. -/
theorem loader_normalizes_first_time_like_column
    (parse : String → Option Int) (df : DF)
    (hnd : df.cols.Nodup) (hne : df.rows ≠ [])
    (hlen : ∀ r ∈ df.rows, r.length = df.cols.length) :
    (spec_find_time_column df.cols = none → normalizeTime parse df = df) ∧
    (∀ i, spec_find_time_column df.cols = some i →
      (normalizeTime parse df).cols = df.cols.set i "request_time" ∧
      (normalizeTime parse df).rows =
        df.rows.map (fun r => r.set i (parseCell parse (r.getD i (Cell.str ""))))) := by
  have hemp : df.rows.isEmpty = false := by
    cases h : df.rows with
    | nil => exact absurd h hne
    | cons a l => rfl
  constructor
  · intro h
    have hfil := spec_find_time_column_none df.cols h
    unfold normalizeTime
    simp only [hemp, Bool.false_eq_true, if_false, hfil]
  · intro i h
    rcases spec_find_time_column_some df.cols i h with ⟨c, hget, _, tl, hfil⟩
    constructor
    · unfold normalizeTime
      simp only [hemp, Bool.false_eq_true, if_false, hfil]
      exact map_rename_set "request_time" c df.cols i hnd hget
    · unfold normalizeTime
      simp only [hemp, Bool.false_eq_true, if_false, hfil]
      apply List.map_congr_left
      intro r hr
      exact zipmap_set (parseCell parse) c df.cols i r hnd (hlen r hr) hget

/-- Witness for C3 on columns id, updated_time, created_at: the canonical
column comes from updated_time (index 1), not created_at. -/
theorem loader_normalizes_first_time_like_column_witness :
    (normalizeTime parseEx dfTie).cols = ["id", "request_time", "created_at"] ∧
    (normalizeTime parseEx dfTie).rows
      = [[Cell.str "1", Cell.ts (some 1704067200), Cell.str "x"]] := by
  have h := (loader_normalizes_first_time_like_column parseEx dfTie
      (by decide) (by decide) (by decide)).2 1 (by decide)
  exact ⟨h.1.trans (by decide), h.2.trans (by decide)⟩

/-- C5: an empty table yields Total = Today = Last7 = 0 and every section
shows its empty-state message; a non-empty table without a `request_time`
column yields Today = 0, Last7 = 0 and the chart placeholder, while Total is
still the row count and the preview and full-table views keep the original
row order. -/
theorem empty_and_missing_column_degrade_gracefully (df : DF) (now : Int) :
    (df.rows = [] →
      totalMetric df = 0 ∧ todayMetric df now = 0 ∧ last7Metric df now = 0 ∧
      chartSection df = ChartOut.info "No contact message data available" ∧
      previewSection df = PreviewOut.info "No messages yet" ∧
      fullTableSection df = TableOut.info "No contact messages yet") ∧
    (df.rows ≠ [] → "request_time" ∉ df.cols →
      todayMetric df now = 0 ∧ last7Metric df now = 0 ∧
      chartSection df = ChartOut.info "No contact message data available" ∧
      totalMetric df = df.rows.length ∧
      recentView df = df ∧ displayView df = df ∧
      fullTableSection df = TableOut.table df
        { lines := csvLines df, filename := "contact_messages.csv",
          mime := "text/csv" }) := by
  constructor
  · intro h
    refine ⟨?_, ?_, ?_, ?_, ?_, ?_⟩ <;>
      simp [totalMetric, todayMetric, last7Metric, chartSection, previewSection,
        fullTableSection, h]
  · intro hne hmem
    have hc : df.cols.contains "request_time" = false := by simpa using hmem
    refine ⟨?_, ?_, ?_, rfl, ?_, ?_, ?_⟩
    · simp [todayMetric, hc, hmem]
    · simp [last7Metric, hc, hmem]
    · simp [chartSection, hc, hmem]
    · simp [recentView, hc, hmem]
    · simp [displayView, hc, hmem]
    · have hemp : df.rows.isEmpty = false := by
        cases h : df.rows with
        | nil => exact absurd h hne
        | cons a l => rfl
      simp [fullTableSection, hemp, displayView, hc, hmem]

/-- Witness for C5: the empty table, and a one-row table whose single column
foo is not time-like. -/
theorem empty_and_missing_column_degrade_gracefully_witness :
    (totalMetric emptyDF = 0 ∧ todayMetric emptyDF 0 = 0 ∧
     last7Metric emptyDF 0 = 0 ∧
     chartSection emptyDF = ChartOut.info "No contact message data available" ∧
     previewSection emptyDF = PreviewOut.info "No messages yet" ∧
     fullTableSection emptyDF = TableOut.info "No contact messages yet") ∧
    (todayMetric dfPlain 0 = 0 ∧ last7Metric dfPlain 0 = 0 ∧
     chartSection dfPlain = ChartOut.info "No contact message data available" ∧
     totalMetric dfPlain = dfPlain.rows.length ∧
     recentView dfPlain = dfPlain ∧ displayView dfPlain = dfPlain ∧
     fullTableSection dfPlain = TableOut.table dfPlain
       { lines := csvLines dfPlain, filename := "contact_messages.csv",
         mime := "text/csv" }) :=
  ⟨(empty_and_missing_column_degrade_gracefully emptyDF 0).1 rfl,
   (empty_and_missing_column_degrade_gracefully dfPlain 0).2 (by decide) (by decide)⟩

theorem keyLe_total (a b : Option Int) : keyLe a b = true ∨ keyLe b a = true := by
  cases a <;> cases b <;> simp [keyLe]
  omega

theorem keyLe_trans (a b c : Option Int)
    (h1 : keyLe a b = true) (h2 : keyLe b c = true) : keyLe a c = true := by
  cases a <;> cases b <;> cases c <;> simp [keyLe] at h1 h2 ⊢
  omega

/-- Counterexample to C6 as stated: the non-empty loaded table with the single
column foo has none of the preview columns, and its recent-activity section is
a plain table, not a list of collapsible summaries. -/
theorem preview_not_expanders_without_preview_cols :
    dfPlain.rows ≠ [] ∧ isExpanders (previewSection dfPlain) = false :=
  ⟨by decide, by decide⟩

/-- C6 (amended): for every non-empty loaded table, the recent-activity
preview is the table sorted by `request_time` descending when that column
exists (original order otherwise), truncated to at most 10 rows; when at
least one of the columns name, email, `request_time` exists, each displayed
row is a collapsible summary labeled with its name and email fields (literal
"Unknown" and the empty string when absent) whose body lists every field but
id with humanized labels; otherwise the rows are shown as a plain table. -/
theorem preview_sorted_truncated_characterization (df : DF) (hne : df.rows ≠ []) :
    (previewCols df ≠ [] →
      previewSection df
        = PreviewOut.expanders (((recentView df).rows.take 10).map (expItem df.cols))) ∧
    (previewCols df = [] →
      previewSection df = PreviewOut.table (headDF 10 (recentView df))) ∧
    List.Perm (recentView df).rows df.rows ∧
    ((recentView df).rows.take 10).length ≤ 10 ∧
    ("request_time" ∈ df.cols →
      (recentView df).rows.Pairwise
        (fun a b => keyLe (tsKey df.cols a) (tsKey df.cols b) = true)) ∧
    ("request_time" ∉ df.cols → recentView df = df) ∧
    (∀ r, expItem df.cols r =
      { nameLabel := match getByName df.cols r "name" with
          | some c => cellToString c
          | none => "Unknown"
        emailLabel := match getByName df.cols r "email" with
          | some c => cellToString c
          | none => ""
        fields := ((df.cols.zip r).filter (fun p => p.1 ≠ "id")).map
          (fun p => (humanize p.1, cellToString p.2)) }) := by
  have hemp : df.rows.isEmpty = false := by
    cases h : df.rows with
    | nil => exact absurd h hne
    | cons a l => rfl
  refine ⟨?_, ?_, ?_, ?_, ?_, ?_, fun r => rfl⟩
  · intro h
    have hp : (previewCols df).isEmpty = false := by
      cases hq : previewCols df with
      | nil => exact absurd hq h
      | cons a l => rfl
    simp [previewSection, hemp, hp]
  · intro h
    simp [previewSection, hemp, h]
  · by_cases hm : "request_time" ∈ df.cols
    · have hc : df.cols.contains "request_time" = true := by simpa using hm
      simp only [recentView, hc, if_true, sortByTimeDesc]
      exact sortBy_perm _ _
    · have hc : df.cols.contains "request_time" = false := by simpa using hm
      simp [recentView, hc, hm]
  · rw [List.length_take]
    exact Nat.min_le_left 10 _
  · intro hm
    have hc : df.cols.contains "request_time" = true := by simpa using hm
    simp only [recentView, hc, if_true, sortByTimeDesc]
    apply pairwise_sortBy
    · intro a b
      exact keyLe_total _ _
    · intro a b c h1 h2
      exact keyLe_trans _ _ _ h1 h2
  · intro hm
    have hc : df.cols.contains "request_time" = false := by simpa using hm
    simp [recentView, hc, hm]

/-- Witness for C6: rows with ordinal request times 3, 1, 2 display in the
order 3, 2, 1, and a 12-row table displays exactly 10 preview entries. -/
theorem preview_sorted_truncated_characterization_witness :
    previewSection dfOrd = PreviewOut.expanders
      [{ nameLabel := "a", emailLabel := "",
         fields := [("Name", "a"), ("Request Time", "3")] },
       { nameLabel := "c", emailLabel := "",
         fields := [("Name", "c"), ("Request Time", "2")] },
       { nameLabel := "b", emailLabel := "",
         fields := [("Name", "b"), ("Request Time", "1")] }] ∧
    (match previewSection dfBig with
     | PreviewOut.expanders l => l.length
     | _ => 0) = 10 := by
  have h1 := (preview_sorted_truncated_characterization dfOrd (by decide)).1 (by decide)
  have h2 := (preview_sorted_truncated_characterization dfBig (by decide)).1 (by decide)
  refine ⟨h1.trans (by decide), ?_⟩
  rw [h2]
  decide

theorem displayView_cols (df : DF) : (displayView df).cols = df.cols := by
  unfold displayView sortByTimeDesc
  split
  · rfl
  · rfl

/-- C7: for every non-empty loaded table, the CSV export is exactly the full
table sorted by `request_time` descending when that column exists (original
order otherwise): a header line of the exact field names followed by one line
per row in that order, no index column, MIME type text/csv, filename
contact_messages.csv. -/
theorem csv_export_matches_sorted_table (df : DF) (hne : df.rows ≠ []) :
    fullTableSection df = TableOut.table (displayView df)
      { lines := joinComma df.cols ::
          (displayView df).rows.map (fun r => joinComma (r.map cellCsv)),
        filename := "contact_messages.csv", mime := "text/csv" } ∧
    (displayView df).cols = df.cols ∧
    ("request_time" ∈ df.cols → displayView df = sortByTimeDesc df) ∧
    ("request_time" ∉ df.cols → displayView df = df) ∧
    List.Perm (displayView df).rows df.rows ∧
    (csvLines (displayView df)).length = df.rows.length + 1 := by
  have hemp : df.rows.isEmpty = false := by
    cases h : df.rows with
    | nil => exact absurd h hne
    | cons a l => rfl
  have hcols := displayView_cols df
  have hperm : List.Perm (displayView df).rows df.rows := by
    by_cases hm : "request_time" ∈ df.cols
    · have hc : df.cols.contains "request_time" = true := by simpa using hm
      simp only [displayView, hc, if_true, sortByTimeDesc]
      exact sortBy_perm _ _
    · have hc : df.cols.contains "request_time" = false := by simpa using hm
      simp [displayView, hc, hm]
  refine ⟨?_, hcols, ?_, ?_, hperm, ?_⟩
  · unfold fullTableSection
    simp only [hemp, Bool.false_eq_true, if_false]
    unfold csvLines
    rw [hcols]
  · intro hm
    have hc : df.cols.contains "request_time" = true := by simpa using hm
    simp [displayView, hc, hm]
  · intro hm
    have hc : df.cols.contains "request_time" = false := by simpa using hm
    simp [displayView, hc, hm]
  · unfold csvLines
    simp only [List.length_cons, List.length_map]
    rw [hperm.length_eq]

/-- Witness for C7: the three-row table with ordinal times 3, 1, 2 exports
header plus rows in descending time order. -/
theorem csv_export_matches_sorted_table_witness :
    fullTableSection dfOrd = TableOut.table
      ⟨["name", "request_time"],
       [[Cell.str "a", Cell.ts (some 3)],
        [Cell.str "c", Cell.ts (some 2)],
        [Cell.str "b", Cell.ts (some 1)]]⟩
      { lines := ["name,request_time", "a,3", "c,2", "b,1"],
        filename := "contact_messages.csv", mime := "text/csv" } := by
  have h := (csv_export_matches_sorted_table dfOrd (by decide)).1
  exact h.trans (by decide)

theorem length_filterMap_map_isSome {α β γ : Type} (f : α → Option β) (g : β → γ)
    (l : List α) :
    (l.filterMap (fun r => (f r).map g)).length
      = (l.filter (fun r => (f r).isSome)).length := by
  induction l with
  | nil => rfl
  | cons a t ih =>
    cases hfa : f a <;> simp [List.filterMap_cons, hfa, List.filter_cons, ih]

/-- C10: rows with a `NaT` `request_time` count toward Total but are excluded
from Today, Last-7-days and the daily aggregation: the daily counts sum to
the number of rows with a non-null `request_time` (at most Total), and
appending a `NaT` row raises Total by one while leaving Today, Last-7-days
and the daily counts unchanged. -/
theorem null_request_times_excluded_from_time_metrics (df : DF) (now : Int)
    (h : "request_time" ∈ df.cols) :
    ((dailyCounts df).map Prod.snd).sum
      = (df.rows.filter (fun r => (tsKey df.cols r).isSome)).length ∧
    ((dailyCounts df).map Prod.snd).sum ≤ totalMetric df ∧
    (∀ r, tsKey df.cols r = none →
      totalMetric ⟨df.cols, df.rows ++ [r]⟩ = totalMetric df + 1 ∧
      todayMetric ⟨df.cols, df.rows ++ [r]⟩ now = todayMetric df now ∧
      last7Metric ⟨df.cols, df.rows ++ [r]⟩ now = last7Metric df now ∧
      dailyCounts ⟨df.cols, df.rows ++ [r]⟩ = dailyCounts df) := by
  have hsum : ((dailyCounts df).map Prod.snd).sum
      = (df.rows.filter (fun r => (tsKey df.cols r).isSome)).length := by
    unfold dailyCounts
    rw [List.map_map]
    have hcomp : Prod.snd ∘ (fun d => (d, (dayKeys df).count d))
        = fun d => (dayKeys df).count d := rfl
    rw [hcomp]
    have hperm := (sortBy_perm (fun a b => decide (a ≤ b)) (dayKeys df).dedup).map
      (fun d => (dayKeys df).count d)
    rw [hperm.sum_eq, sum_counts_dedup]
    exact length_filterMap_map_isSome (tsKey df.cols) (fun t => t.ediv 86400) df.rows
  refine ⟨hsum, ?_, ?_⟩
  · rw [hsum]
    exact List.length_filter_le _ _
  · intro r hr
    have hTrow : todayRow df.cols now r = false := by simp [todayRow, hr]
    have hLrow : last7Row df.cols now r = false := by simp [last7Row, hr]
    have hdk : dayKeys ⟨df.cols, df.rows ++ [r]⟩ = dayKeys df := by
      simp [dayKeys, List.filterMap_append, hr]
    refine ⟨by simp [totalMetric], ?_, ?_, ?_⟩
    · rw [todayMetric_eq_filter ⟨df.cols, df.rows ++ [r]⟩ now h,
        todayMetric_eq_filter df now h]
      simp [List.filter_append, hTrow]
    · rw [last7Metric_eq_filter ⟨df.cols, df.rows ++ [r]⟩ now h,
        last7Metric_eq_filter df now h]
      simp [List.filter_append, hLrow]
    · simp only [dailyCounts, hdk]

/-- Witness for C10: a table with one timestamped row and one `NaT` row, and
a further appended `NaT` row, evaluated at now = 90000 (inside day 1). -/
theorem null_request_times_excluded_from_time_metrics_witness :
    ((dailyCounts dfNull).map Prod.snd).sum = 1 ∧
    (dfNull.rows.filter (fun r => (tsKey dfNull.cols r).isSome)).length = 1 ∧
    totalMetric ⟨dfNull.cols, dfNull.rows ++ [rowNull]⟩ = totalMetric dfNull + 1 ∧
    todayMetric ⟨dfNull.cols, dfNull.rows ++ [rowNull]⟩ 90000
      = todayMetric dfNull 90000 ∧
    last7Metric ⟨dfNull.cols, dfNull.rows ++ [rowNull]⟩ 90000
      = last7Metric dfNull 90000 ∧
    dailyCounts ⟨dfNull.cols, dfNull.rows ++ [rowNull]⟩ = dailyCounts dfNull := by
  have h := null_request_times_excluded_from_time_metrics dfNull 90000 (by decide)
  have h3 := h.2.2 rowNull (by decide)
  exact ⟨h.1.trans (by decide), by decide, h3.1, h3.2.1, h3.2.2.1, h3.2.2.2⟩
